import Mathlib

/-!
Shallow embedding of the document-compare pipeline
(`pdf_processor.py` and `llm_comparer.py`).

Texts are modelled as lists of characters (`Str`), Python ints as `ℤ`,
and the two LLM calls (`compare_chunk`'s JSON call and the synthesis
text call) as explicit function parameters, since their outputs come
from an external service.
-/

/-- Texts are lists of characters; Python string ops become list ops. -/
abbrev Str := List Char

/-- The blank-line paragraph separator `"\n\n"` used by `chunk_text`. -/
def nl2 : Str := ['\n', '\n']

/-- Python's `text.split("\n\n")`: split at each non-overlapping
occurrence of the two-newline separator, scanning left to right.
Always returns a non-empty list of separator-free pieces. -/
def splitPar : List Char → List (List Char)
  | [] => [[]]
  | '\n' :: '\n' :: rest => [] :: splitPar rest
  | c :: rest =>
    match splitPar rest with
    | [] => [[c]]
    | h :: t => (c :: h) :: t

/-- Python's `sep.join(xs)`. -/
def pyJoin (s : Str) : List Str → Str
  | [] => []
  | [x] => x
  | x :: xs => x ++ s ++ pyJoin s xs

/-- The accumulation loop of `chunk_text` (pdf_processor.py lines 66-84):
walk the paragraph list carrying the current chunk, starting a new chunk
when adding the next paragraph would pass `max_chunk_size`, and flushing
the final non-empty chunk at the end. -/
def chunkLoop (max_chunk_size : ℤ) : List Str → Str → List Str
  | [], current_chunk =>
    if current_chunk ≠ [] then [current_chunk] else []
  | paragraph :: rest, current_chunk =>
    if (current_chunk.length : ℤ) + (paragraph.length : ℤ) > max_chunk_size ∧
        current_chunk ≠ [] then
      current_chunk :: chunkLoop max_chunk_size rest paragraph
    else if current_chunk ≠ [] then
      chunkLoop max_chunk_size rest (current_chunk ++ nl2 ++ paragraph)
    else
      chunkLoop max_chunk_size rest paragraph

/-- `chunk_text` (pdf_processor.py lines 61-84): split on blank lines and
greedily regroup paragraphs into chunks of at most `max_chunk_size`
characters (per the loop's own size test). -/
def chunk_text (text : Str) (max_chunk_size : ℤ) : List Str :=
  chunkLoop max_chunk_size (splitPar text) []

theorem splitPar_ne_nil (s : List Char) : splitPar s ≠ [] := by
  induction s using splitPar.induct <;> simp_all [splitPar]

@[simp] theorem pyJoin_nil (s : Str) : pyJoin s [] = [] := rfl

theorem pyJoin_cons (s : Str) (x : Str) (xs : List Str) (h : xs ≠ []) :
    pyJoin s (x :: xs) = x ++ s ++ pyJoin s xs := by
  cases xs with
  | nil => exact absurd rfl h
  | cons y ys => rfl

/-- Joining the pieces of `splitPar` with the separator restores the text. -/
theorem pyJoin_splitPar (s : List Char) : pyJoin nl2 (splitPar s) = s := by
  induction s using splitPar.induct with
  | case1 => rfl
  | case2 rest ih =>
    rw [splitPar, pyJoin_cons _ _ _ (splitPar_ne_nil rest), ih]
    rfl
  | case3 c rest hside heq ih =>
    exact absurd heq (splitPar_ne_nil rest)
  | case4 c rest hside h t heq ih =>
    rw [splitPar.eq_3 c rest hside, heq]
    rw [heq] at ih
    cases t with
    | nil => simpa [pyJoin] using ih
    | cons z zs =>
      rw [pyJoin_cons _ _ _ (by simp)] at ih
      rw [pyJoin_cons _ _ _ (by simp)]
      simpa using ih

/-- Paragraphs re-joined with a leading separator before each one:
the tail shape of a chunk that grows by `current += "\n\n" + paragraph`. -/
def leadJoin : List Str → Str
  | [] => []
  | p :: ps => nl2 ++ p ++ leadJoin ps

theorem pyJoin_eq_leadJoin (x : Str) (xs : List Str) :
    pyJoin nl2 (x :: xs) = x ++ leadJoin xs := by
  induction xs generalizing x with
  | nil => simp [pyJoin, leadJoin]
  | cons y ys ih =>
    rw [pyJoin_cons _ _ _ (by simp), leadJoin, ih]
    simp [nl2]

/-- Character cost of appending each paragraph with its separator. -/
def sepCost (ps : List Str) : ℤ := (ps.map (fun p => (p.length : ℤ) + 2)).sum

@[simp] theorem sepCost_nil : sepCost [] = 0 := rfl

@[simp] theorem sepCost_cons (p : Str) (ps : List Str) :
    sepCost (p :: ps) = (p.length : ℤ) + 2 + sepCost ps := by
  simp [sepCost]

theorem sepCost_nonneg (ps : List Str) : 0 ≤ sepCost ps := by
  induction ps with
  | nil => simp
  | cons p ps ih => simp; positivity

theorem leadJoin_length (ps : List Str) : ((leadJoin ps).length : ℤ) = sepCost ps := by
  induction ps with
  | nil => simp [leadJoin]
  | cons p ps ih => simp [leadJoin, nl2, ih]; ring

/-- When every remaining paragraph still fits, the loop never starts a new
chunk: it folds everything into `current`. -/
theorem chunkLoop_all_fit (max_chunk_size : ℤ) :
    ∀ (ps : List Str) (current : Str), current ≠ [] →
      (current.length : ℤ) + sepCost ps ≤ max_chunk_size →
      chunkLoop max_chunk_size ps current = [current ++ leadJoin ps] := by
  intro ps
  induction ps with
  | nil =>
    intro current hne _
    simp [chunkLoop, hne, leadJoin]
  | cons p rest ih =>
    intro current hne hfit
    have hrest := sepCost_nonneg rest
    have hnogrow : ¬ ((current.length : ℤ) + (p.length : ℤ) > max_chunk_size ∧
        current ≠ []) := by
      rintro ⟨hgt, -⟩
      simp only [sepCost_cons] at hfit
      omega
    rw [chunkLoop, if_neg hnogrow, if_pos hne]
    rw [ih (current ++ nl2 ++ p) (by simp [nl2]) (by simp [nl2]; simp only [sepCost_cons] at hfit; omega)]
    simp [leadJoin, nl2]

/-- A nonempty text that does not open with the blank-line separator has a
nonempty first paragraph. -/
theorem splitPar_head_ne_nil (c : Char) (rest : List Char)
    (hT : (c :: rest).take 2 ≠ nl2) :
    ∃ h t, splitPar (c :: rest) = h :: t ∧ h ≠ [] := by
  cases rest with
  | nil =>
    rw [splitPar.eq_3 c [] (by intro r1 _ h2; cases h2)]
    rw [splitPar.eq_1]
    exact ⟨[c], [], rfl, by simp⟩
  | cons c2 rest2 =>
    by_cases hnl : c = '\n' ∧ c2 = '\n'
    · exact absurd (by simp [hnl.1, hnl.2, nl2]) hT
    · have hside : ∀ r1 : List Char, c = '\n' → c2 :: rest2 = '\n' :: r1 → False := by
        intro r1 h1 h2
        exact hnl ⟨h1, (List.cons.injEq _ _ _ _ ▸ h2).1⟩
      rw [splitPar.eq_3 c (c2 :: rest2) hside]
      cases heq : splitPar (c2 :: rest2) with
      | nil => exact absurd heq (splitPar_ne_nil _)
      | cons h t => exact ⟨c :: h, t, rfl, by simp⟩

theorem chunk_text_nil (max_chunk_size : ℤ) : chunk_text [] max_chunk_size = [] := by
  simp [chunk_text, splitPar, chunkLoop]

/-- Claim C3 (amended part): if the text fits in the budget and does not
begin with the blank-line separator, joining the chunks of `chunk_text`
back with the separator reconstructs the text exactly. -/
theorem chunk_text_roundtrip (T : Str) (max_chunk_size : ℤ)
    (hlen : (T.length : ℤ) ≤ max_chunk_size) (hT : T.take 2 ≠ nl2) :
    pyJoin nl2 (chunk_text T max_chunk_size) = T := by
  cases T with
  | nil => rw [chunk_text_nil]; rfl
  | cons c rest =>
    obtain ⟨h, t, heq, hne⟩ := splitPar_head_ne_nil c rest hT
    have hjoin : h ++ leadJoin t = c :: rest := by
      rw [← pyJoin_eq_leadJoin, ← heq, pyJoin_splitPar]
    unfold chunk_text
    rw [heq, chunkLoop]
    rw [if_neg (by rintro ⟨-, hc⟩; exact hc rfl), if_neg (by simp)]
    have hlen2 : (h.length : ℤ) + sepCost t ≤ max_chunk_size := by
      have hlj := leadJoin_length t
      have hl : h.length + (leadJoin t).length = (c :: rest).length := by
        rw [← hjoin]
        simp
      simp only [List.length_cons] at hl hlen
      omega
    rw [chunkLoop_all_fit max_chunk_size t h hne hlen2, hjoin]
    rfl

/-- Loop invariant behind the chunk-size bound: every emitted chunk is
either one of the original paragraphs or at most two characters (one
blank-line separator) over the budget. -/
theorem chunkLoop_size (max_chunk_size : ℤ) (pars0 : List Str) :
    ∀ (ps : List Str) (current : Str),
      (∀ p ∈ ps, p ∈ pars0) →
      (current = [] ∨ current ∈ pars0 ∨ (current.length : ℤ) ≤ max_chunk_size + 2) →
      ∀ c ∈ chunkLoop max_chunk_size ps current,
        c ∈ pars0 ∨ (c.length : ℤ) ≤ max_chunk_size + 2 := by
  intro ps
  induction ps with
  | nil =>
    intro current _ hcur c hc
    rw [chunkLoop] at hc
    split at hc
    · rcases List.mem_singleton.mp hc with rfl
      rcases hcur with rfl | h | h
      · simp_all
      · exact Or.inl h
      · exact Or.inr h
    · cases hc
  | cons p rest ih =>
    intro current hps hcur c hc
    have hp : p ∈ pars0 := hps p (List.mem_cons_self p rest)
    have hrest : ∀ q ∈ rest, q ∈ pars0 := fun q hq => hps q (List.mem_cons_of_mem p hq)
    rw [chunkLoop] at hc
    split at hc
    · rcases List.mem_cons.mp hc with rfl | hc2
      · rcases hcur with rfl | h | h
        · simp_all
        · exact Or.inl h
        · exact Or.inr h
      · exact ih p hrest (Or.inr (Or.inl hp)) c hc2
    · split at hc
      · rename_i hno hne
        have hfit : (current.length : ℤ) + (p.length : ℤ) ≤ max_chunk_size := by
          by_contra hgt
          exact hno ⟨by omega, hne⟩
        refine ih (current ++ nl2 ++ p) hrest (Or.inr (Or.inr ?_)) c hc
        simp [nl2]
        omega
      · exact ih p hrest (Or.inr (Or.inl hp)) c hc

/-- Claim C4 (amended): every chunk produced by `chunk_text` is either one
of the text's paragraphs (which may be oversized) or has length at most
`max_chunk_size + 2` — the size test ignores the two separator characters
added when a paragraph is appended to an existing chunk. -/
theorem chunk_text_size (text : Str) (max_chunk_size : ℤ) :
    ∀ c ∈ chunk_text text max_chunk_size,
      c ∈ splitPar text ∨ (c.length : ℤ) ≤ max_chunk_size + 2 :=
  chunkLoop_size max_chunk_size (splitPar text) (splitPar text) []
    (fun _ hp => hp) (Or.inl rfl)

/-- An oversized current chunk is always emitted as-is. -/
theorem chunkLoop_oversized_self (max_chunk_size : ℤ) (current : Str)
    (h0 : 0 ≤ max_chunk_size) (hbig : max_chunk_size < (current.length : ℤ)) :
    ∀ ps, current ∈ chunkLoop max_chunk_size ps current := by
  have hne : current ≠ [] := by
    intro h
    rw [h] at hbig
    simp at hbig
    omega
  intro ps
  cases ps with
  | nil =>
    rw [chunkLoop, if_pos hne]
    exact List.mem_singleton.mpr rfl
  | cons q rest =>
    rw [chunkLoop, if_pos ⟨by have := Int.natCast_nonneg q.length; omega, hne⟩]
    exact List.mem_cons_self _ _

theorem chunkLoop_oversized_mem (max_chunk_size : ℤ) (p : Str)
    (h0 : 0 ≤ max_chunk_size) (hbig : max_chunk_size < (p.length : ℤ)) :
    ∀ (ps : List Str) (current : Str), p ∈ ps →
      p ∈ chunkLoop max_chunk_size ps current := by
  intro ps
  induction ps with
  | nil => intro current hmem; cases hmem
  | cons q rest ih =>
    intro current hmem
    rcases List.mem_cons.mp hmem with rfl | hmem2
    · by_cases hc : current = []
      · subst hc
        rw [chunkLoop, if_neg (by rintro ⟨-, hc2⟩; exact hc2 rfl), if_neg (by simp)]
        exact chunkLoop_oversized_self max_chunk_size p h0 hbig rest
      · rw [chunkLoop,
          if_pos ⟨by have := Int.natCast_nonneg current.length; omega, hc⟩]
        exact List.mem_cons_of_mem _ (chunkLoop_oversized_self max_chunk_size p h0 hbig rest)
    · rw [chunkLoop]
      split
      · exact List.mem_cons_of_mem _ (ih q hmem2)
      · split
        · exact ih (current ++ nl2 ++ q) hmem2
        · exact ih q hmem2

/-- Claim C5: a paragraph longer than the (non-negative) budget is never
split — it shows up in the output of `chunk_text` as its own chunk. -/
theorem chunk_text_oversized_standalone (text : Str) (max_chunk_size : ℤ)
    (p : Str) (hp : p ∈ splitPar text) (h0 : 0 ≤ max_chunk_size)
    (hbig : max_chunk_size < (p.length : ℤ)) :
    p ∈ chunk_text text max_chunk_size :=
  chunkLoop_oversized_mem max_chunk_size p h0 hbig (splitPar text) [] hp

theorem chunkLoop_mem_ne_nil (max_chunk_size : ℤ) :
    ∀ (ps : List Str) (current : Str),
      ∀ c ∈ chunkLoop max_chunk_size ps current, c ≠ [] := by
  intro ps
  induction ps with
  | nil =>
    intro current c hc
    rw [chunkLoop] at hc
    split at hc
    · rcases List.mem_singleton.mp hc with rfl
      assumption
    · cases hc
  | cons p rest ih =>
    intro current c hc
    rw [chunkLoop] at hc
    split at hc
    · rcases List.mem_cons.mp hc with rfl | hc2
      · rename_i hcond
        exact hcond.2
      · exact ih p c hc2
    · split at hc
      · exact ih (current ++ nl2 ++ p) c hc
      · exact ih p c hc

/-- Claim C9: `chunk_text` never returns an empty chunk, and a text that
is exactly one blank-line separator chunks to the empty list. -/
theorem chunk_text_no_empty_chunk (text : Str) (max_chunk_size : ℤ) :
    (∀ c ∈ chunk_text text max_chunk_size, c ≠ []) ∧
      chunk_text nl2 max_chunk_size = [] := by
  constructor
  · exact chunkLoop_mem_ne_nil max_chunk_size (splitPar text) []
  · simp [chunk_text, nl2, splitPar, chunkLoop]

/-! ### Embedding of `llm_comparer.py` -/

/-- Decimal rendering of a Python int interpolated into an f-string. -/
def natToStr (n : ℕ) : Str := (toString n).data

/-- Decimal rendering of a Python int interpolated into an f-string. -/
def intToStr (z : ℤ) : Str := (toString z).data

def sUnchanged : Str := "unchanged".data
def sAdded : Str := "added".data
def sDeleted : Str := "deleted".data
def sColon : Str := ": ".data
def sChunk : Str := "Chunk ".data
def sErrSecPre : Str := "\n\n[ERROR PROCESSING CHUNK ".data
def sErrSecSuf : Str := "]\n\n".data
def sSumErrPre : Str := "[Error processing chunk ".data
def sSumErrSuf : Str := "]".data
def sAddedNote : Str := ": This entire chunk was added.".data
def sDeletedNote : Str := ": This entire chunk was deleted.".data
def sSep : Str := "\n---\n".data
def sTruncMark : Str := "\n... [Summaries truncated due to length]".data
def sSynthFail : Str := "Synthesis Failed. Raw Chunk Summaries:\n---\n".data
def sNoChanges : Str :=
  "No specific changes were identified or summarized during chunk processing.".data
def sBothEmpty : Str := "Both documents appear to be empty.".data
def sConfigErr : Str := "max_chunk_size is too small to accommodate the prompt overhead.".data
def sBannerPre : Str := "**Note:** Errors occurred during the processing of ".data
def sBannerMid : Str :=
  " chunk(s). The comparison or summary below might be incomplete or inaccurate in affected areas.\nError Details:\n- ".data
def sBannerSep : Str := "\n- ".data
def sBannerSuf : Str := "\n\n---\n\n".data

def keyError : Str := "error".data
def keyDiffSections : Str := "diff_sections".data
def keySummary : Str := "summary".data
def keyDetailedSummary : Str := "detailed_summary".data
def keyAdditions : Str := "additions".data
def keyDeletions : Str := "deletions".data
def keyModifications : Str := "modifications".data
def keyChunksProcessed : Str := "chunks_processed".data
def keyChunksAdded : Str := "chunks_added".data
def keyChunksDeleted : Str := "chunks_deleted".data
def keyChunkErrors : Str := "chunk_errors".data

def promptA : Str :=
  "\nYou are an expert analyst summarizing document changes. You have been provided with the results of a chunk-by-chunk comparison between two versions of a document.\n\nOverall Change Counts:\n- Additions: ".data
def promptB : Str := " significant blocks/changes noted.\n- Deletions: ".data
def promptC : Str := " significant blocks/changes noted.\n- Modifications: ".data
def promptD : Str :=
  " significant blocks/changes noted.\n\nChunk-level Summaries and Error Notes:\n--- START CHUNK SUMMARIES ---\n".data
def promptE : Str :=
  "\n--- END CHUNK SUMMARIES ---\n\nBased *only* on the information above, generate a single, cohesive, human-readable summary of the *overall* key changes between the original and modified documents. Focus on the most significant differences.\n- Do NOT mention the word \"chunk\" or the chunking process in your final summary.\n- Synthesize the findings into a unified narrative.\n- If errors were noted during chunk processing, briefly mention that some parts might be missing or inaccurate due to processing errors.\n- Be concise yet informative.\n".data

/-- One entry of a `diff_sections` list ({"type": ..., "text": ...}).
A "modified" entry's extra "original" payload is never inspected by
`compare_texts`, so it is not modelled. -/
structure DiffSection where
  type : Str
  text : Str
deriving DecidableEq

/-- The success shape of `compare_chunk`'s return value: the three
required JSON fields, with the summary's three counts read through
`summary.get(..., 0)`. -/
structure ChunkOk where
  diff_sections : List DiffSection
  additions : ℤ
  deletions : ℤ
  modifications : ℤ
  detailed_summary : Str
deriving DecidableEq

/-- `compare_chunk`'s result as `compare_texts` consumes it: a dict with
an "error" key (only its message is read) or a success dict. -/
inductive ChunkResult where
  | ok : ChunkOk → ChunkResult
  | err : Str → ChunkResult
deriving DecidableEq

/-- The accumulators of `compare_texts`'s chunk-pair loop
(llm_comparer.py lines 215-220). -/
structure LoopState where
  all_diff_sections : List DiffSection
  total_additions : ℤ
  total_deletions : ℤ
  total_modifications : ℤ
  all_chunk_summaries_raw : List Str
  chunk_errors : List Str
deriving DecidableEq

def initState : LoopState := ⟨[], 0, 0, 0, [], []⟩

/-- The synthetic Unchanged section appended for a failed chunk pair
(llm_comparer.py lines 247-250); `i` is the 0-based pair index. -/
def errSection (i : ℕ) (msg : Str) : DiffSection :=
  { type := sUnchanged, text := sErrSecPre ++ natToStr (i + 1) ++ sColon ++ msg ++ sErrSecSuf }

/-- One iteration of the chunk-pair loop (llm_comparer.py lines 227-251). -/
def processPair (r : ChunkResult) (i : ℕ) (st : LoopState) : LoopState :=
  match r with
  | .ok r =>
    { all_diff_sections := st.all_diff_sections ++ r.diff_sections
      total_additions := st.total_additions + r.additions
      total_deletions := st.total_deletions + r.deletions
      total_modifications := st.total_modifications + r.modifications
      all_chunk_summaries_raw :=
        if r.detailed_summary ≠ [] then st.all_chunk_summaries_raw ++ [r.detailed_summary]
        else st.all_chunk_summaries_raw
      chunk_errors := st.chunk_errors }
  | .err msg =>
    { all_diff_sections := st.all_diff_sections ++ [errSection i msg]
      total_additions := st.total_additions
      total_deletions := st.total_deletions
      total_modifications := st.total_modifications
      all_chunk_summaries_raw := st.all_chunk_summaries_raw ++
        [sSumErrPre ++ natToStr (i + 1) ++ sColon ++ msg ++ sSumErrSuf]
      chunk_errors := st.chunk_errors ++ [sChunk ++ natToStr (i + 1) ++ sColon ++ msg] }

/-- The sequential chunk-pair loop: `cc` is the Chunk Comparator
(`compare_chunk`, an LLM call, hence a parameter of the model). -/
def runPairs (cc : Str → Str → ChunkResult) :
    List (Str × Str) → ℕ → LoopState → LoopState
  | [], _, st => st
  | (c1, c2) :: rest, i, st => runPairs cc rest (i + 1) (processPair (cc c1 c2) i st)

def contribSections (i : ℕ) : ChunkResult → List DiffSection
  | .ok r => r.diff_sections
  | .err msg => [errSection i msg]

def contribAdds : ChunkResult → ℤ
  | .ok r => r.additions
  | .err _ => 0

def contribDels : ChunkResult → ℤ
  | .ok r => r.deletions
  | .err _ => 0

def contribMods : ChunkResult → ℤ
  | .ok r => r.modifications
  | .err _ => 0

def contribNotes (i : ℕ) : ChunkResult → List Str
  | .ok r => if r.detailed_summary ≠ [] then [r.detailed_summary] else []
  | .err msg => [sSumErrPre ++ natToStr (i + 1) ++ sColon ++ msg ++ sSumErrSuf]

def contribErrs (i : ℕ) : ChunkResult → List Str
  | .ok _ => []
  | .err msg => [sChunk ++ natToStr (i + 1) ++ sColon ++ msg]

def pairSections (cc : Str → Str → ChunkResult) :
    List (Str × Str) → ℕ → List DiffSection
  | [], _ => []
  | (a, b) :: rest, i => contribSections i (cc a b) ++ pairSections cc rest (i + 1)

def pairNotes (cc : Str → Str → ChunkResult) : List (Str × Str) → ℕ → List Str
  | [], _ => []
  | (a, b) :: rest, i => contribNotes i (cc a b) ++ pairNotes cc rest (i + 1)

def pairErrs (cc : Str → Str → ChunkResult) : List (Str × Str) → ℕ → List Str
  | [], _ => []
  | (a, b) :: rest, i => contribErrs i (cc a b) ++ pairErrs cc rest (i + 1)

def pairAdds (cc : Str → Str → ChunkResult) (ps : List (Str × Str)) : ℤ :=
  (ps.map (fun q => contribAdds (cc q.1 q.2))).sum

def pairDels (cc : Str → Str → ChunkResult) (ps : List (Str × Str)) : ℤ :=
  (ps.map (fun q => contribDels (cc q.1 q.2))).sum

def pairMods (cc : Str → Str → ChunkResult) (ps : List (Str × Str)) : ℤ :=
  (ps.map (fun q => contribMods (cc q.1 q.2))).sum

def addedNote (i : ℕ) : Str := sChunk ++ natToStr (i + 1) ++ sAddedNote

def deletedNote (i : ℕ) : Str := sChunk ++ natToStr (i + 1) ++ sDeletedNote

def addedSection (c : Str) : DiffSection := ⟨sAdded, c⟩

def deletedSection (c : Str) : DiffSection := ⟨sDeleted, c⟩

/-- The pair loop followed by the leftover-chunk handling
(llm_comparer.py lines 227-270): extra chunks of document 2 are appended
wholesale as "added" (one addition each), extra chunks of document 1 as
"deleted" (one deletion each). -/
def aggregate (cc : Str → Str → ChunkResult) (chunks1 chunks2 : List Str) : LoopState :=
  let num_chunks1 := chunks1.length
  let num_chunks2 := chunks2.length
  let st := runPairs cc (chunks1.zip chunks2) 0 initState
  if num_chunks2 > num_chunks1 then
    { st with
      all_diff_sections := st.all_diff_sections ++ (chunks2.drop num_chunks1).map addedSection
      all_chunk_summaries_raw := st.all_chunk_summaries_raw ++
        (List.range (num_chunks2 - num_chunks1)).map (fun j => addedNote (num_chunks1 + j))
      total_additions := st.total_additions + ((num_chunks2 - num_chunks1 : ℕ) : ℤ) }
  else if num_chunks1 > num_chunks2 then
    { st with
      all_diff_sections := st.all_diff_sections ++ (chunks1.drop num_chunks2).map deletedSection
      all_chunk_summaries_raw := st.all_chunk_summaries_raw ++
        (List.range (num_chunks1 - num_chunks2)).map (fun j => deletedNote (num_chunks2 + j))
      total_deletions := st.total_deletions + ((num_chunks1 - num_chunks2 : ℕ) : ℤ) }
  else st

/-- The Python `summary` dict of the final result, modelled as an ordered
key/value list so that which keys are present is observable. -/
abbrev SummaryDict := List (Str × ℤ)

def getCount (s : SummaryDict) (k : Str) : Option ℤ :=
  (s.find? (fun kv => kv.1 == k)).map (fun kv => kv.2)

def mkFullSummary (a d m : ℤ) (processed added deleted errs : ℕ) : SummaryDict :=
  [(keyAdditions, a), (keyDeletions, d), (keyModifications, m),
   (keyChunksProcessed, (processed : ℤ)), (keyChunksAdded, (added : ℤ)),
   (keyChunksDeleted, (deleted : ℤ)), (keyChunkErrors, (errs : ℤ))]

/-- The final return value of `compare_texts`. -/
structure AggregateResult where
  diff_sections : List DiffSection
  summary : SummaryDict
  detailed_summary : Str
deriving DecidableEq

/-- The short-circuit result when both texts chunk to nothing
(llm_comparer.py lines 207-213); note its summary has only three keys. -/
def emptyResult : AggregateResult :=
  { diff_sections := [{ type := sUnchanged, text := [] }]
    summary := [(keyAdditions, 0), (keyDeletions, 0), (keyModifications, 0)]
    detailed_summary := sBothEmpty }

/-- The synthesis-input cap (llm_comparer.py lines 278-281): truncate to
20000 characters and append a visible marker when exceeded. -/
def truncateSynth (c : Str) : Str :=
  if c.length > 20000 then c.take 20000 ++ sTruncMark else c

/-- The synthesis prompt with the three totals and the (possibly
truncated) concatenated chunk summaries interpolated. -/
def mkSynthesisPrompt (adds dels mods : ℤ) (body : Str) : Str :=
  promptA ++ intToStr adds ++ promptB ++ intToStr dels ++ promptC ++ intToStr mods ++
    promptD ++ body ++ promptE

/-- The warning block prepended when chunk failures occurred
(llm_comparer.py lines 323-325). -/
def errorBanner (errors : List Str) : Str :=
  sBannerPre ++ natToStr errors.length ++ sBannerMid ++ pyJoin sBannerSep errors ++ sBannerSuf

/-- The non-degenerate result of `compare_texts` (llm_comparer.py lines
215-341): run the pair loop and leftover handling, synthesize the final
narrative (falling back to the raw concatenation when `synth` returns
empty), and prepend the warning banner when failures occurred. -/
def okResult (cc : Str → Str → ChunkResult) (synth : Str → Str)
    (chunks1 chunks2 : List Str) : AggregateResult :=
  let st := aggregate cc chunks1 chunks2
  let concatenated_chunk_summaries := truncateSynth (pyJoin sSep st.all_chunk_summaries_raw)
  let base :=
    if st.all_chunk_summaries_raw ≠ [] then
      let synthesized := synth (mkSynthesisPrompt st.total_additions st.total_deletions
        st.total_modifications concatenated_chunk_summaries)
      if synthesized ≠ [] then synthesized
      else sSynthFail ++ concatenated_chunk_summaries
    else sNoChanges
  let final_detailed_summary :=
    if st.chunk_errors ≠ [] then errorBanner st.chunk_errors ++ base else base
  { diff_sections := st.all_diff_sections
    summary := mkFullSummary st.total_additions st.total_deletions st.total_modifications
      (min chunks1.length chunks2.length) (chunks2.length - chunks1.length)
      (chunks1.length - chunks2.length) st.chunk_errors.length
    detailed_summary := final_detailed_summary }

/-- `compare_texts` (llm_comparer.py lines 188-341).  `cc` stands for
`compare_chunk` and `synth` for `call_gemini_for_text` (both LLM calls;
`synth` returning `[]` is the call's failure signal).  A raised
`ValueError` is the `.error` branch.  Python's `max(0, n2 - n1)` is `ℕ`
subtraction. -/
def compare_texts (cc : Str → Str → ChunkResult) (synth : Str → Str)
    (text1 text2 : Str) (max_chunk_size : ℤ) : Except Str AggregateResult :=
  let effective_chunk_content_size := max_chunk_size - 1500
  if effective_chunk_content_size ≤ 0 then
    .error sConfigErr
  else
    let chunks1 := chunk_text text1 effective_chunk_content_size
    let chunks2 := chunk_text text2 effective_chunk_content_size
    if chunks1 = [] ∧ chunks2 = [] then
      .ok emptyResult
    else
      .ok (okResult cc synth chunks1 chunks2)

/-- The response classification of `compare_chunk` (llm_comparer.py lines
163-171) on the key set of the parsed JSON object: an "error" key forces
failure, otherwise all three required fields must be present. -/
def compare_chunk_ok (keys : List Str) : Bool :=
  if keyError ∈ keys then false
  else if keyDiffSections ∈ keys ∧ keySummary ∈ keys ∧ keyDetailedSummary ∈ keys then true
  else false

theorem runPairs_spec (cc : Str → Str → ChunkResult) (ps : List (Str × Str)) :
    ∀ (i : ℕ) (st : LoopState),
      runPairs cc ps i st =
        { all_diff_sections := st.all_diff_sections ++ pairSections cc ps i
          total_additions := st.total_additions + pairAdds cc ps
          total_deletions := st.total_deletions + pairDels cc ps
          total_modifications := st.total_modifications + pairMods cc ps
          all_chunk_summaries_raw := st.all_chunk_summaries_raw ++ pairNotes cc ps i
          chunk_errors := st.chunk_errors ++ pairErrs cc ps i } := by
  induction ps with
  | nil =>
    intro i st
    simp [runPairs, pairSections, pairNotes, pairErrs, pairAdds, pairDels, pairMods]
  | cons q rest ih =>
    obtain ⟨a, b⟩ := q
    intro i st
    rw [runPairs, ih]
    cases h : cc a b with
    | ok r =>
      by_cases hd : r.detailed_summary = [] <;>
        simp [processPair, h, pairSections, pairNotes, pairErrs, pairAdds, pairDels, pairMods,
          contribSections, contribNotes, contribErrs, contribAdds, contribDels, contribMods,
          hd, List.append_assoc, add_assoc]
    | err msg =>
      simp [processPair, h, pairSections, pairNotes, pairErrs, pairAdds, pairDels, pairMods,
        contribSections, contribNotes, contribErrs, contribAdds, contribDels, contribMods,
        List.append_assoc]

theorem pairSections_append (cc : Str → Str → ChunkResult) (l1 l2 : List (Str × Str)) :
    ∀ i, pairSections cc (l1 ++ l2) i = pairSections cc l1 i ++ pairSections cc l2 (i + l1.length) := by
  induction l1 with
  | nil => intro i; simp [pairSections]
  | cons q rest ih =>
    obtain ⟨a, b⟩ := q
    intro i
    have hidx : i + 1 + rest.length = i + (rest.length + 1) := by omega
    simp only [List.cons_append, pairSections, List.append_eq, ih (i + 1), List.length_cons,
      List.append_assoc, hidx]

theorem pairNotes_append (cc : Str → Str → ChunkResult) (l1 l2 : List (Str × Str)) :
    ∀ i, pairNotes cc (l1 ++ l2) i = pairNotes cc l1 i ++ pairNotes cc l2 (i + l1.length) := by
  induction l1 with
  | nil => intro i; simp [pairNotes]
  | cons q rest ih =>
    obtain ⟨a, b⟩ := q
    intro i
    have hidx : i + 1 + rest.length = i + (rest.length + 1) := by omega
    simp only [List.cons_append, pairNotes, List.append_eq, ih (i + 1), List.length_cons,
      List.append_assoc, hidx]

theorem pairErrs_append (cc : Str → Str → ChunkResult) (l1 l2 : List (Str × Str)) :
    ∀ i, pairErrs cc (l1 ++ l2) i = pairErrs cc l1 i ++ pairErrs cc l2 (i + l1.length) := by
  induction l1 with
  | nil => intro i; simp [pairErrs]
  | cons q rest ih =>
    obtain ⟨a, b⟩ := q
    intro i
    have hidx : i + 1 + rest.length = i + (rest.length + 1) := by omega
    simp only [List.cons_append, pairErrs, List.append_eq, ih (i + 1), List.length_cons,
      List.append_assoc, hidx]

theorem pairAdds_append (cc : Str → Str → ChunkResult) (l1 l2 : List (Str × Str)) :
    pairAdds cc (l1 ++ l2) = pairAdds cc l1 + pairAdds cc l2 := by
  simp [pairAdds]

theorem pairDels_append (cc : Str → Str → ChunkResult) (l1 l2 : List (Str × Str)) :
    pairDels cc (l1 ++ l2) = pairDels cc l1 + pairDels cc l2 := by
  simp [pairDels]

theorem pairMods_append (cc : Str → Str → ChunkResult) (l1 l2 : List (Str × Str)) :
    pairMods cc (l1 ++ l2) = pairMods cc l1 + pairMods cc l2 := by
  simp [pairMods]

/-- Closed form of `aggregate`: both leftover tails appear (at most one of
them non-empty), and the leftover counts are `ℕ` subtractions. -/
theorem aggregate_spec (cc : Str → Str → ChunkResult) (chunks1 chunks2 : List Str) :
    aggregate cc chunks1 chunks2 =
      { all_diff_sections := pairSections cc (chunks1.zip chunks2) 0 ++
          (chunks2.drop chunks1.length).map addedSection ++
          (chunks1.drop chunks2.length).map deletedSection
        total_additions := pairAdds cc (chunks1.zip chunks2) +
          ((chunks2.length - chunks1.length : ℕ) : ℤ)
        total_deletions := pairDels cc (chunks1.zip chunks2) +
          ((chunks1.length - chunks2.length : ℕ) : ℤ)
        total_modifications := pairMods cc (chunks1.zip chunks2)
        all_chunk_summaries_raw := pairNotes cc (chunks1.zip chunks2) 0 ++
          (List.range (chunks2.length - chunks1.length)).map
            (fun j => addedNote (chunks1.length + j)) ++
          (List.range (chunks1.length - chunks2.length)).map
            (fun j => deletedNote (chunks2.length + j))
        chunk_errors := pairErrs cc (chunks1.zip chunks2) 0 } := by
  unfold aggregate
  rw [runPairs_spec]
  rcases Nat.lt_trichotomy chunks1.length chunks2.length with hlt | heq | hgt
  · rw [if_pos hlt]
    have h1 : chunks1.length - chunks2.length = 0 := by omega
    have h2 : chunks1.drop chunks2.length = [] := List.drop_eq_nil_of_le (by omega)
    simp [initState, h1, h2]
  · rw [if_neg (by omega), if_neg (by omega)]
    have h1 : chunks1.length - chunks2.length = 0 := by omega
    have h2 : chunks2.length - chunks1.length = 0 := by omega
    have h3 : chunks1.drop chunks2.length = [] := List.drop_eq_nil_of_le (by omega)
    have h4 : chunks2.drop chunks1.length = [] := List.drop_eq_nil_of_le (by omega)
    simp [initState, h1, h2, h3, h4]
  · rw [if_neg (by omega), if_pos hgt]
    have h1 : chunks2.length - chunks1.length = 0 := by omega
    have h2 : chunks2.drop chunks1.length = [] := List.drop_eq_nil_of_le (by omega)
    simp [initState, h1, h2]

theorem compare_texts_ok_eq (cc : Str → Str → ChunkResult) (synth : Str → Str)
    (text1 text2 : Str) (max_chunk_size : ℤ) (hmax : 1500 < max_chunk_size)
    (hne : ¬ (chunk_text text1 (max_chunk_size - 1500) = [] ∧
        chunk_text text2 (max_chunk_size - 1500) = [])) :
    compare_texts cc synth text1 text2 max_chunk_size =
      .ok (okResult cc synth (chunk_text text1 (max_chunk_size - 1500))
        (chunk_text text2 (max_chunk_size - 1500))) := by
  unfold compare_texts
  rw [if_neg (by omega), if_neg hne]

theorem okResult_diff_sections (cc : Str → Str → ChunkResult) (synth : Str → Str)
    (chunks1 chunks2 : List Str) :
    (okResult cc synth chunks1 chunks2).diff_sections =
      (aggregate cc chunks1 chunks2).all_diff_sections := rfl

theorem okResult_summary (cc : Str → Str → ChunkResult) (synth : Str → Str)
    (chunks1 chunks2 : List Str) :
    (okResult cc synth chunks1 chunks2).summary =
      mkFullSummary (aggregate cc chunks1 chunks2).total_additions
        (aggregate cc chunks1 chunks2).total_deletions
        (aggregate cc chunks1 chunks2).total_modifications
        (min chunks1.length chunks2.length) (chunks2.length - chunks1.length)
        (chunks1.length - chunks2.length)
        (aggregate cc chunks1 chunks2).chunk_errors.length := rfl

theorem getCount_additions (a d m : ℤ) (p ca cd ce : ℕ) :
    getCount (mkFullSummary a d m p ca cd ce) keyAdditions = some a := rfl

theorem getCount_deletions (a d m : ℤ) (p ca cd ce : ℕ) :
    getCount (mkFullSummary a d m p ca cd ce) keyDeletions = some d := rfl

theorem getCount_modifications (a d m : ℤ) (p ca cd ce : ℕ) :
    getCount (mkFullSummary a d m p ca cd ce) keyModifications = some m := rfl

theorem getCount_processed (a d m : ℤ) (p ca cd ce : ℕ) :
    getCount (mkFullSummary a d m p ca cd ce) keyChunksProcessed = some (p : ℤ) := rfl

theorem getCount_chunk_errors (a d m : ℤ) (p ca cd ce : ℕ) :
    getCount (mkFullSummary a d m p ca cd ce) keyChunkErrors = some (ce : ℤ) := rfl

/-- Claim C10: `compare_chunk` accepts a parsed JSON response exactly when
it has no "error" key and has all three required fields; an "error" key
forces failure even if the three fields are also present. -/
theorem compare_chunk_ok_iff (keys : List Str) :
    compare_chunk_ok keys = true ↔
      (keyError ∉ keys ∧ keyDiffSections ∈ keys ∧ keySummary ∈ keys ∧
        keyDetailedSummary ∈ keys) := by
  unfold compare_chunk_ok
  split_ifs with h1 h2
  · simp [h1]
  · simp [h1, h2]
  · simp only [Bool.false_eq_true, false_iff]
    rintro ⟨-, h3, h4, h5⟩
    exact h2 ⟨h3, h4, h5⟩

theorem compare_chunk_ok_iff_witness :
    compare_chunk_ok [keyError, keyDiffSections, keySummary, keyDetailedSummary] = false := by
  have h := compare_chunk_ok_iff [keyError, keyDiffSections, keySummary, keyDetailedSummary]
  rcases hb : compare_chunk_ok [keyError, keyDiffSections, keySummary, keyDetailedSummary] with _ | _
  · rfl
  · exact absurd ((h.mp hb).1 (by decide)) (fun f => f)

/-- Claim C6: `compare_texts` raises the configuration `ValueError` exactly
when the effective content budget `max_chunk_size - 1500` is non-positive
(so for every non-positive `max_chunk_size` in particular), independently
of the input texts — i.e. before any chunking; with a positive effective
budget no error is ever returned. -/
theorem compare_texts_config_check (cc : Str → Str → ChunkResult) (synth : Str → Str)
    (text1 text2 : Str) (max_chunk_size : ℤ) :
    (max_chunk_size - 1500 ≤ 0 →
      compare_texts cc synth text1 text2 max_chunk_size = .error sConfigErr) ∧
    (0 < max_chunk_size - 1500 →
      ∀ e, compare_texts cc synth text1 text2 max_chunk_size ≠ .error e) := by
  constructor
  · intro h
    unfold compare_texts
    rw [if_pos h]
  · intro h e
    unfold compare_texts
    rw [if_neg (by omega)]
    dsimp only
    split <;> simp

def ccNone : Str → Str → ChunkResult := fun _ _ => ChunkResult.err []

def synthNone : Str → Str := fun _ => []

theorem compare_texts_config_check_witness :
    compare_texts ccNone synthNone [] [] 1000 = .error sConfigErr :=
  (compare_texts_config_check ccNone synthNone [] [] 1000).1 (by decide)

/-- Claim C7 fails as stated: when both texts chunk to nothing, the
short-circuit result's summary has no `chunks_processed` key (nor the
other three chunk-count keys). -/
theorem compare_texts_summary_shape_fails :
    compare_texts ccNone synthNone [] [] 2000 = .ok emptyResult ∧
      getCount emptyResult.summary keyChunksProcessed = none ∧
      getCount emptyResult.summary keyChunkErrors = none :=
  ⟨rfl, rfl, rfl⟩

/-- Claim C7 (amended): whenever at least one text produces chunks, the
summary of the returned `AggregateResult` carries all seven counts; in
the both-empty short-circuit the reduced `emptyResult` is returned, whose
summary carries only the three change counts. -/
theorem compare_texts_summary_shape (cc : Str → Str → ChunkResult) (synth : Str → Str)
    (text1 text2 : Str) (max_chunk_size : ℤ) (hmax : 1500 < max_chunk_size) :
    (¬ (chunk_text text1 (max_chunk_size - 1500) = [] ∧
        chunk_text text2 (max_chunk_size - 1500) = []) →
      ∃ res, compare_texts cc synth text1 text2 max_chunk_size = .ok res ∧
        res.summary.map Prod.fst =
          [keyAdditions, keyDeletions, keyModifications, keyChunksProcessed,
           keyChunksAdded, keyChunksDeleted, keyChunkErrors]) ∧
    ((chunk_text text1 (max_chunk_size - 1500) = [] ∧
        chunk_text text2 (max_chunk_size - 1500) = []) →
      compare_texts cc synth text1 text2 max_chunk_size = .ok emptyResult ∧
        emptyResult.summary.map Prod.fst = [keyAdditions, keyDeletions, keyModifications]) := by
  constructor
  · intro hne
    refine ⟨_, compare_texts_ok_eq cc synth text1 text2 max_chunk_size hmax hne, ?_⟩
    rw [okResult_summary]
    rfl
  · intro hb
    constructor
    · unfold compare_texts
      rw [if_neg (by omega), if_pos hb]
    · rfl

def exA : Str := "aa".data

def exB : Str := "bb\n\ncc".data

theorem compare_texts_summary_shape_witness :
    ∃ res, compare_texts ccNone synthNone exA exB 1501 = .ok res ∧
      res.summary.map Prod.fst =
        [keyAdditions, keyDeletions, keyModifications, keyChunksProcessed,
         keyChunksAdded, keyChunksDeleted, keyChunkErrors] :=
  (compare_texts_summary_shape ccNone synthNone exA exB 1501 (by decide)).1 (by decide)

def exTwoPars : Str := "aaa\n\nbb".data

/-- Claim C4 fails as stated: with budget 5 the two paragraphs "aaa" and
"bb" are packed into the single chunk "aaa\n\nbb" of length 7 — over the
limit, yet not a lone oversized paragraph (the size test ignores the two
separator characters). -/
theorem chunk_text_size_fails :
    ∃ c ∈ chunk_text exTwoPars 5,
      ¬ ((c.length : ℤ) ≤ 5) ∧ c ∉ splitPar exTwoPars := by decide

theorem chunk_text_size_witness :
    exTwoPars ∈ chunk_text exTwoPars 5 ∧
      (exTwoPars ∈ splitPar exTwoPars ∨ (exTwoPars.length : ℤ) ≤ 5 + 2) :=
  ⟨by decide, chunk_text_size exTwoPars 5 exTwoPars (by decide)⟩

def exLeadSep : Str := "\n\na".data

/-- Claim C3 fails as stated: a text that begins with the blank-line
separator loses it — `chunk_text "\n\na"` is `["a"]`, which joins back to
"a", not "\n\na". -/
theorem chunk_text_roundtrip_fails :
    (exLeadSep.length : ℤ) ≤ 8000 ∧
      pyJoin nl2 (chunk_text exLeadSep 8000) ≠ exLeadSep := by decide

def exRound : Str := "Para1\n\nPara2".data

theorem chunk_text_roundtrip_witness :
    pyJoin nl2 (chunk_text exRound 8000) = exRound :=
  chunk_text_roundtrip exRound 8000 (by decide) (by decide)

def exBigPar : Str := "aaaa\n\nbb".data

def exBigParHead : Str := "aaaa".data

theorem chunk_text_oversized_standalone_witness :
    exBigParHead ∈ chunk_text exBigPar 3 :=
  chunk_text_oversized_standalone exBigPar 3 exBigParHead (by decide) (by decide) (by decide)

theorem chunk_text_no_empty_chunk_witness :
    exTwoPars ∈ chunk_text exTwoPars 5 ∧ exTwoPars ≠ [] :=
  ⟨by decide, (chunk_text_no_empty_chunk exTwoPars 5).1 exTwoPars (by decide)⟩

/-- Claim C1: when every aligned pair succeeds, the additions total is the
sum of the per-pair addition counts plus one per leftover chunk of
document 2, the deletions total symmetrically adds one per leftover chunk
of document 1, and the diff sections are all pair results in order
followed by the leftover chunks of document 2 tagged "added" and then the
leftover chunks of document 1 tagged "deleted", each in ascending chunk
order (at most one of the two leftover tails is non-empty). -/
theorem compare_texts_leftover_spec (cc : Str → Str → ChunkResult) (synth : Str → Str)
    (text1 text2 : Str) (max_chunk_size : ℤ) (chunks1 chunks2 : List Str)
    (hc1 : chunks1 = chunk_text text1 (max_chunk_size - 1500))
    (hc2 : chunks2 = chunk_text text2 (max_chunk_size - 1500))
    (hmax : 1500 < max_chunk_size)
    (hne : ¬ (chunks1 = [] ∧ chunks2 = []))
    (hok : ∀ q ∈ chunks1.zip chunks2, ∃ r, cc q.1 q.2 = ChunkResult.ok r) :
    ∃ res, compare_texts cc synth text1 text2 max_chunk_size = .ok res ∧
      res.diff_sections = pairSections cc (chunks1.zip chunks2) 0 ++
        (chunks2.drop chunks1.length).map addedSection ++
        (chunks1.drop chunks2.length).map deletedSection ∧
      getCount res.summary keyAdditions =
        some (pairAdds cc (chunks1.zip chunks2) +
          ((chunks2.drop chunks1.length).length : ℤ)) ∧
      getCount res.summary keyDeletions =
        some (pairDels cc (chunks1.zip chunks2) +
          ((chunks1.drop chunks2.length).length : ℤ)) := by
  subst hc1 hc2
  refine ⟨_, compare_texts_ok_eq cc synth text1 text2 max_chunk_size hmax hne, ?_, ?_, ?_⟩
  · rw [okResult_diff_sections, aggregate_spec]
  · rw [okResult_summary, getCount_additions, aggregate_spec]
    simp [List.length_drop]
  · rw [okResult_summary, getCount_deletions, aggregate_spec]
    simp [List.length_drop]

def ccOkFixed : Str → Str → ChunkResult :=
  fun _ _ => ChunkResult.ok ⟨[⟨sUnchanged, exA⟩], 2, 0, 1, sChunk⟩

theorem compare_texts_leftover_spec_witness :
    ∃ res, compare_texts ccOkFixed synthNone exA exB 1501 = .ok res ∧
      res.diff_sections =
        pairSections ccOkFixed ((chunk_text exA 1).zip (chunk_text exB 1)) 0 ++
          ((chunk_text exB 1).drop (chunk_text exA 1).length).map addedSection ++
          ((chunk_text exA 1).drop (chunk_text exB 1).length).map deletedSection ∧
      getCount res.summary keyAdditions =
        some (pairAdds ccOkFixed ((chunk_text exA 1).zip (chunk_text exB 1)) +
          (((chunk_text exB 1).drop (chunk_text exA 1).length).length : ℤ)) ∧
      getCount res.summary keyDeletions =
        some (pairDels ccOkFixed ((chunk_text exA 1).zip (chunk_text exB 1)) +
          (((chunk_text exA 1).drop (chunk_text exB 1).length).length : ℤ)) :=
  compare_texts_leftover_spec ccOkFixed synthNone exA exB 1501
    (chunk_text exA 1) (chunk_text exB 1) rfl rfl (by decide) (by decide)
    (fun q _ => ⟨_, rfl⟩)

theorem zip_split_ne_nil {chunks1 chunks2 : List Str} {pre post : List (Str × Str)}
    {a b : Str} (hzip : chunks1.zip chunks2 = pre ++ (a, b) :: post) :
    ¬ (chunks1 = [] ∧ chunks2 = []) := by
  rintro ⟨rfl, -⟩
  simp at hzip

/-- Claim C2: a chunk pair whose comparator call fails contributes nothing
to the three change totals, exactly one entry to the failure count,
and exactly one synthetic "unchanged" section carrying the error marker
that names the chunk; the pairs before and after it are aggregated
normally, so one failure never aborts the pipeline. -/
theorem compare_texts_chunk_failure_isolated (cc : Str → Str → ChunkResult)
    (synth : Str → Str) (text1 text2 : Str) (max_chunk_size : ℤ)
    (chunks1 chunks2 : List Str) (pre post : List (Str × Str)) (a b msg : Str)
    (hc1 : chunks1 = chunk_text text1 (max_chunk_size - 1500))
    (hc2 : chunks2 = chunk_text text2 (max_chunk_size - 1500))
    (hmax : 1500 < max_chunk_size)
    (hzip : chunks1.zip chunks2 = pre ++ (a, b) :: post)
    (herr : cc a b = ChunkResult.err msg) :
    ∃ res, compare_texts cc synth text1 text2 max_chunk_size = .ok res ∧
      res.diff_sections = pairSections cc pre 0 ++
        errSection pre.length msg ::
          (pairSections cc post (pre.length + 1) ++
            (chunks2.drop chunks1.length).map addedSection ++
            (chunks1.drop chunks2.length).map deletedSection) ∧
      errSection pre.length msg =
        ⟨sUnchanged, sErrSecPre ++ natToStr (pre.length + 1) ++ sColon ++ msg ++ sErrSecSuf⟩ ∧
      getCount res.summary keyAdditions =
        some (pairAdds cc pre + pairAdds cc post +
          ((chunks2.length - chunks1.length : ℕ) : ℤ)) ∧
      getCount res.summary keyDeletions =
        some (pairDels cc pre + pairDels cc post +
          ((chunks1.length - chunks2.length : ℕ) : ℤ)) ∧
      getCount res.summary keyModifications =
        some (pairMods cc pre + pairMods cc post) ∧
      getCount res.summary keyChunkErrors =
        some ((((pairErrs cc pre 0).length + 1 +
          (pairErrs cc post (pre.length + 1)).length : ℕ)) : ℤ) := by
  have hne : ¬ (chunks1 = [] ∧ chunks2 = []) := zip_split_ne_nil hzip
  subst hc1 hc2
  refine ⟨_, compare_texts_ok_eq cc synth text1 text2 max_chunk_size hmax hne,
    ?_, rfl, ?_, ?_, ?_, ?_⟩
  · rw [okResult_diff_sections, aggregate_spec, hzip, pairSections_append]
    simp [pairSections, herr, contribSections]
  · rw [okResult_summary, getCount_additions, aggregate_spec, hzip, pairAdds_append]
    simp [pairAdds, herr, contribAdds]
  · rw [okResult_summary, getCount_deletions, aggregate_spec, hzip, pairDels_append]
    simp [pairDels, herr, contribDels]
  · rw [okResult_summary, getCount_modifications, aggregate_spec, hzip, pairMods_append]
    simp [pairMods, herr, contribMods]
  · rw [okResult_summary, getCount_chunk_errors, aggregate_spec, hzip, pairErrs_append]
    simp [pairErrs, herr, contribErrs]
    omega

def exBb : Str := "bb".data

theorem compare_texts_chunk_failure_isolated_witness :
    ∃ res, compare_texts ccNone synthNone exA exB 1501 = .ok res ∧
      res.diff_sections = pairSections ccNone [] 0 ++
        errSection (List.length ([] : List (Str × Str))) [] ::
          (pairSections ccNone [] (List.length ([] : List (Str × Str)) + 1) ++
            ((chunk_text exB 1).drop (chunk_text exA 1).length).map addedSection ++
            ((chunk_text exA 1).drop (chunk_text exB 1).length).map deletedSection) ∧
      errSection (List.length ([] : List (Str × Str))) [] =
        ⟨sUnchanged, sErrSecPre ++ natToStr (List.length ([] : List (Str × Str)) + 1) ++
          sColon ++ [] ++ sErrSecSuf⟩ ∧
      getCount res.summary keyAdditions =
        some (pairAdds ccNone [] + pairAdds ccNone [] +
          (((chunk_text exB 1).length - (chunk_text exA 1).length : ℕ) : ℤ)) ∧
      getCount res.summary keyDeletions =
        some (pairDels ccNone [] + pairDels ccNone [] +
          (((chunk_text exA 1).length - (chunk_text exB 1).length : ℕ) : ℤ)) ∧
      getCount res.summary keyModifications =
        some (pairMods ccNone [] + pairMods ccNone []) ∧
      getCount res.summary keyChunkErrors =
        some ((((pairErrs ccNone [] 0).length + 1 +
          (pairErrs ccNone [] (List.length ([] : List (Str × Str)) + 1)).length : ℕ)) : ℤ) :=
  compare_texts_chunk_failure_isolated ccNone synthNone exA exB 1501
    (chunk_text exA 1) (chunk_text exB 1) [] [] exA exBb []
    rfl rfl (by decide) (by decide) rfl

/-- Claim C8: the captured per-chunk narratives (success narratives and
synthetic failure lines alike, in chunk-pair order, then leftover notes)
are joined with the visible "\n---\n" separator, capped at 20000
characters with a visible truncation marker when exceeded, and exactly
this capped text is interpolated into the prompt handed to the
synthesizer; the final narrative is built from the synthesizer's answer
on that prompt (or the fallback around the same capped text). -/
theorem compare_texts_synthesis_input (cc : Str → Str → ChunkResult)
    (synth : Str → Str) (text1 text2 : Str) (max_chunk_size : ℤ)
    (chunks1 chunks2 : List Str)
    (hc1 : chunks1 = chunk_text text1 (max_chunk_size - 1500))
    (hc2 : chunks2 = chunk_text text2 (max_chunk_size - 1500))
    (hmax : 1500 < max_chunk_size)
    (hs : (aggregate cc chunks1 chunks2).all_chunk_summaries_raw ≠ []) :
    (aggregate cc chunks1 chunks2).all_chunk_summaries_raw =
      pairNotes cc (chunks1.zip chunks2) 0 ++
        (List.range (chunks2.length - chunks1.length)).map
          (fun j => addedNote (chunks1.length + j)) ++
        (List.range (chunks1.length - chunks2.length)).map
          (fun j => deletedNote (chunks2.length + j)) ∧
    ((pyJoin sSep (aggregate cc chunks1 chunks2).all_chunk_summaries_raw).length > 20000 →
      truncateSynth (pyJoin sSep (aggregate cc chunks1 chunks2).all_chunk_summaries_raw) =
        (pyJoin sSep (aggregate cc chunks1 chunks2).all_chunk_summaries_raw).take 20000 ++
          sTruncMark) ∧
    ((pyJoin sSep (aggregate cc chunks1 chunks2).all_chunk_summaries_raw).length ≤ 20000 →
      truncateSynth (pyJoin sSep (aggregate cc chunks1 chunks2).all_chunk_summaries_raw) =
        pyJoin sSep (aggregate cc chunks1 chunks2).all_chunk_summaries_raw) ∧
    (¬ (chunks1 = [] ∧ chunks2 = []) →
      ∃ res, compare_texts cc synth text1 text2 max_chunk_size = .ok res ∧
        res.detailed_summary =
          (if (aggregate cc chunks1 chunks2).chunk_errors ≠ [] then
            errorBanner (aggregate cc chunks1 chunks2).chunk_errors ++
              (if synth (mkSynthesisPrompt (aggregate cc chunks1 chunks2).total_additions
                  (aggregate cc chunks1 chunks2).total_deletions
                  (aggregate cc chunks1 chunks2).total_modifications
                  (truncateSynth (pyJoin sSep
                    (aggregate cc chunks1 chunks2).all_chunk_summaries_raw))) ≠ [] then
                synth (mkSynthesisPrompt (aggregate cc chunks1 chunks2).total_additions
                  (aggregate cc chunks1 chunks2).total_deletions
                  (aggregate cc chunks1 chunks2).total_modifications
                  (truncateSynth (pyJoin sSep
                    (aggregate cc chunks1 chunks2).all_chunk_summaries_raw)))
              else sSynthFail ++ truncateSynth (pyJoin sSep
                (aggregate cc chunks1 chunks2).all_chunk_summaries_raw))
          else
            (if synth (mkSynthesisPrompt (aggregate cc chunks1 chunks2).total_additions
                (aggregate cc chunks1 chunks2).total_deletions
                (aggregate cc chunks1 chunks2).total_modifications
                (truncateSynth (pyJoin sSep
                  (aggregate cc chunks1 chunks2).all_chunk_summaries_raw))) ≠ [] then
              synth (mkSynthesisPrompt (aggregate cc chunks1 chunks2).total_additions
                (aggregate cc chunks1 chunks2).total_deletions
                (aggregate cc chunks1 chunks2).total_modifications
                (truncateSynth (pyJoin sSep
                  (aggregate cc chunks1 chunks2).all_chunk_summaries_raw)))
            else sSynthFail ++ truncateSynth (pyJoin sSep
              (aggregate cc chunks1 chunks2).all_chunk_summaries_raw)))) := by
  refine ⟨by rw [aggregate_spec], ?_, ?_, ?_⟩
  · intro h
    rw [truncateSynth, if_pos h]
  · intro h
    rw [truncateSynth, if_neg (by omega)]
  · intro hne
    subst hc1 hc2
    refine ⟨_, compare_texts_ok_eq cc synth text1 text2 max_chunk_size hmax hne, ?_⟩
    simp only [okResult]
    rw [if_pos hs]

theorem compare_texts_synthesis_input_witness :
    (aggregate ccOkFixed (chunk_text exA 1) (chunk_text exB 1)).all_chunk_summaries_raw =
      pairNotes ccOkFixed ((chunk_text exA 1).zip (chunk_text exB 1)) 0 ++
        (List.range ((chunk_text exB 1).length - (chunk_text exA 1).length)).map
          (fun j => addedNote ((chunk_text exA 1).length + j)) ++
        (List.range ((chunk_text exA 1).length - (chunk_text exB 1).length)).map
          (fun j => deletedNote ((chunk_text exB 1).length + j)) :=
  (compare_texts_synthesis_input ccOkFixed synthNone exA exB 1501
    (chunk_text exA 1) (chunk_text exB 1) rfl rfl (by decide) (by decide)).1
